/-
Verification of the English-counties quiz core logic (src/App.jsx) against its
natural-language specification.

Modelling conventions:
* The catalog `COUNTIES` (imported from counties.js, which only declares a fixed
  list of county-name strings) is a parameter `counties : List String` of every
  definition that reads it; no claim depends on its concrete contents.
* JavaScript numbers are modelled as exact rationals (ℚ); the weight formula and
  the percent computation only involve small exact decimal constants, additions,
  multiplications and divisions, so the rational model matches the formulas the
  spec states.
* `localStorage` is modelled by the `storage` field of `AppState` (the table the
  serialized content denotes); `console.warn` output is modelled by the `log`
  field.  React state updates are modelled as a whole-state transition function
  per event handler, which matches the single-threaded event model of the spec.
-/
import Mathlib

/-- Per-region counters, mirroring `defaultStats`-shaped entries in App.jsx. -/
structure RegionStat where
  seen : Nat
  correct : Nat
  wrong : Nat
deriving DecidableEq, Repr

/-- `const defaultStats = {seen: 0, correct: 0, wrong: 0}` -/
def defaultStats : RegionStat := ⟨0, 0, 0⟩

/-- The stats table: a JS object mapping county id to its entry; absent keys
are `none` (JS `undefined`). -/
def StatsTable := String → Option RegionStat

/-- `stats[county] ?? {...defaultStats}` -/
def ensureStats (stats : StatsTable) (county : String) : RegionStat :=
  (stats county).getD defaultStats

/-- The JS spread update `{...stats, [county]: entry}`. -/
def setStat (stats : StatsTable) (county : String) (entry : RegionStat) : StatsTable :=
  fun c => if c = county then some entry else stats c

/-- The empty table `{}`. -/
def emptyStats : StatsTable := fun _ => none

/-- `previous && county === previous` — the JS truthiness test: a `null`
previous (modelled `none`) and the empty string are both falsy. -/
def prevMatches (previous : Option String) (county : String) : Bool :=
  match previous with
  | none => false
  | some p => p != "" && county == p

/-- `weightForCounty(stats, county, previous)` from App.jsx, in exact rational
arithmetic.  Note the early `return 6.5` when `attempts === 0`: in that case
neither the `seen === 0` bonus nor the previous-county discount is applied. -/
def weightForCounty (stats : StatsTable) (county : String) (previous : Option String) : ℚ :=
  let entry := ensureStats stats county
  let attempts := entry.correct + entry.wrong
  let seen := entry.seen
  if attempts = 0 then 6.5
  else
    let missRate : ℚ := (entry.wrong : ℚ) / (attempts : ℚ)
    let freshnessBoost : ℚ := 1 / ((seen : ℚ) + 1)
    let weight : ℚ := 1 + missRate * 4 + freshnessBoost
    let weight1 : ℚ := if seen = 0 then weight + 0.4 else weight
    if prevMatches previous county then weight1 * 0.6 else weight1

/-- The roulette walk in `pickNextCounty`: subtract each weight from the
threshold; return the first county at which the running threshold is ≤ 0.
`none` models falling off the end of the loop. -/
def pickLoop (weighted : List (String × ℚ)) (threshold : ℚ) : Option String :=
  match weighted with
  | [] => none
  | (county, weight) :: rest =>
    let threshold1 := threshold - weight
    if threshold1 ≤ 0 then some county else pickLoop rest threshold1

/-- The total of all county weights (the `reduce` in `pickNextCounty`). -/
def totalWeight (counties : List String) (stats : StatsTable) (previous : Option String) : ℚ :=
  (counties.map (fun county => weightForCounty stats county previous)).sum

/-- `pickNextCounty(stats, previous)` with the random draw injected:
`r` models the `Math.random()` result, so the threshold is `r * totalWeight`.
`none` arises only for an empty catalog (where the source would throw on
`weighted[weighted.length - 1]`); the trailing `counties.getLast?` models the
explicit last-element fallback of the source. -/
def pickNextCounty (counties : List String) (stats : StatsTable) (previous : Option String)
    (r : ℚ) : Option String :=
  let weighted := counties.map (fun county => (county, weightForCounty stats county previous))
  let total := (weighted.map Prod.snd).sum
  let threshold := r * total
  (pickLoop weighted threshold).orElse (fun _ => counties.getLast?)

/-- `applyNextCounty(stats, nextCounty)` minus the `persistStats` side effect,
which is recorded in `AppState.storage` by `presentCounty` below (the only way
this helper is invoked from the component). -/
def applyNextCounty (stats : StatsTable) (nextCounty : String) : StatsTable × String :=
  let nextEntry := ensureStats stats nextCounty
  let statsWithSeen := setStat stats nextCounty {nextEntry with seen := nextEntry.seen + 1}
  (statsWithSeen, nextCounty)

/-- `advanceCounty(stats, previousCounty)`: pick then apply.  The `none` branch
of the pick is unreachable for a non-empty catalog (the source would throw on an
empty one). -/
def advanceCounty (counties : List String) (r : ℚ) (stats : StatsTable)
    (previousCounty : Option String) : StatsTable × String :=
  match pickNextCounty counties stats previousCounty r with
  | some next => applyNextCounty stats next
  | none => (stats, "")

/-- One Fisher–Yates swap `[copy[index], copy[swapIndex]] = ...` on a list. -/
def listSwap (l : List String) (i j : Nat) : List String :=
  match l.get? i, l.get? j with
  | some x, some y => (l.set i y).set j x
  | _, _ => l

/-- The descending Fisher–Yates loop of `shuffle`, with the drawn swap index at
loop position `index` modelled as `rand index % (index + 1)` (every value
`Math.floor(Math.random() * (index + 1))` can produce is representable). -/
def shuffleAux (rand : Nat → Nat) : Nat → List String → List String
  | 0, l => l
  | i + 1, l => shuffleAux rand i (listSwap l (i + 1) (rand (i + 1) % (i + 2)))

/-- `shuffle(values)` with injected randomness. -/
def shuffle (rand : Nat → Nat) (values : List String) : List String :=
  match values.length with
  | 0 => values
  | n + 1 => shuffleAux rand n values

/-- One entry of `TEST_MESSAGES`: a severity threshold with its message pool. -/
structure MessageBucket where
  threshold : Int
  messages : List String
deriving DecidableEq, Repr

/-- The threshold-100 entry of `TEST_MESSAGES`. -/
def bucket100 : MessageBucket :=
  ⟨100, ["You’re flawless!",
         "Absolute county wizard!",
         "Every county bows to you.",
         "Perfection achieved. Frame this moment.",
         "Cartographic superstar!",
         "Nothing left to teach you—take a bow."]⟩

/-- The threshold-95 entry of `TEST_MESSAGES`. -/
def bucket95 : MessageBucket :=
  ⟨95, ["Sublime geography skills!",
        "Nearly perfect—bragging rights earned.",
        "Counties fear your insight.",
        "So close to perfect—brilliant work!",
        "County encyclopedia unlocked.",
        "If this were darts, you’d be on a nine-darter."]⟩

/-- The threshold-85 entry of `TEST_MESSAGES`. -/
def bucket85 : MessageBucket :=
  ⟨85, ["Great job!",
        "The counties are proud of you.",
        "You’re on a roll—keep going!",
        "A+ on the atlas quiz!",
        "County compass pointing true north.",
        "Bring this energy to the next round."]⟩

/-- The threshold-70 entry of `TEST_MESSAGES`. -/
def bucket70 : MessageBucket :=
  ⟨70, ["Solid work!",
        "Nice effort—one more round?",
        "County compass mostly on point.",
        "You’re warming up the map nicely.",
        "Stick with it—victory is circling.",
        "Momentum is on your side."]⟩

/-- The threshold-50 entry of `TEST_MESSAGES`. -/
def bucket50 : MessageBucket :=
  ⟨50, ["Room to grow, but you’re getting there!",
        "Counties are tricky—keep practicing!",
        "Not bad—ready for a rematch?",
        "Your map sense is waking up.",
        "Give it another spin—progress incoming.",
        "You’re halfway to hero status."]⟩

/-- The threshold-0 entry of `TEST_MESSAGES`. -/
def bucket0 : MessageBucket :=
  ⟨0, ["Tough run—give it another go!",
       "Counties can be stubborn—try again!",
       "Every miss is a step closer to mastery.",
       "Maps are tricky—today was recon.",
       "Shake it off—next run will sparkle.",
       "The counties won this round—demand a rematch."]⟩

/-- The `TEST_MESSAGES` table of App.jsx, in its source order (thresholds
descending: 100, 95, 85, 70, 50, 0). -/
def TEST_MESSAGES : List MessageBucket :=
  [bucket100, bucket95, bucket85, bucket70, bucket50, bucket0]

/-- The first bucket, scanning `TEST_MESSAGES` top-down (thresholds from
highest to lowest), whose threshold is ≤ percent — the for-loop of
`pickTestMessage`. -/
def bucketFor (percent : Int) : Option MessageBucket :=
  TEST_MESSAGES.find? (fun bucket => decide (bucket.threshold ≤ percent))

/-- `pickTestMessage(percent)`: the head of a fresh shuffle of the matching
bucket's pool (`rotations[0]`).  Every pool is non-empty, so the `headD`
default and the end-of-loop `"Great effort!"` fallback are unreachable. -/
def pickTestMessage (rand : Nat → Nat) (percent : Int) : String :=
  match bucketFor percent with
  | some bucket => (shuffle rand bucket.messages).headD "Great effort!"
  | none => "Great effort!"

/-- `Math.round` on an exact rational: round half toward +∞. -/
def jsRound (q : ℚ) : Int := ⌊q + 1/2⌋

/-- The `testResult` object built by `finishTest`. -/
structure TestRes where
  correct : Nat
  total : Nat
  percent : Int
  durationMs : Int
deriving DecidableEq, Repr

/-- The component state of App.jsx that the core logic reads and writes,
plus the two ambient collaborators: `storage` is the table the persisted
JSON denotes (`localStorage`), `log` collects `console.warn` diagnostics. -/
structure AppState where
  stats : StatsTable
  currentCounty : String
  isRevealed : Bool
  feedback : String
  feedbackType : Option String
  selectedCountyName : String
  isTestMode : Bool
  testQueue : List String
  testCorrect : Nat
  testStartTime : Option Nat
  testResult : Option TestRes
  storage : StatsTable
  log : List String

/-- A blank base state used for concrete instances. -/
def baseState : AppState :=
  { stats := emptyStats, currentCounty := "", isRevealed := false, feedback := "",
    feedbackType := none, selectedCountyName := "", isTestMode := false, testQueue := [],
    testCorrect := 0, testStartTime := none, testResult := none, storage := emptyStats,
    log := [] }

/-- `setState(prev => applyNextCounty(prev.stats, nextCounty))`: the single
path by which a county is presented as the new prompt, in ordinary and in test
mode.  The `persistStats(statsWithSeen)` call inside the source's
`applyNextCounty` is the `storage` update. -/
def presentCounty (s : AppState) (nextCounty : String) : AppState :=
  let p := applyNextCounty s.stats nextCounty
  { s with stats := p.1, currentCounty := p.2, storage := p.1 }

/-- `setState(prev => advanceCounty(prev.stats, prev.currentCounty))` with the
persist inside `applyNextCounty` recorded in `storage`. -/
def advanceState (counties : List String) (r : ℚ) (s : AppState) : AppState :=
  match pickNextCounty counties s.stats (some s.currentCounty) r with
  | some next => presentCounty s next
  | none => s

/-- `finishTest(finalCorrect, {skipAdvance})`.  `now` models `Date.now()`, `r`
the random draw a subsequent advance would use.  The `testStartTime ? ... : 0`
truthiness test makes a zero timestamp yield duration 0. -/
def finishTest (counties : List String) (now : Nat) (r : ℚ) (s : AppState)
    (finalCorrect : Nat) (skipAdvance : Bool) : AppState :=
  let durationMs : Int := match s.testStartTime with
    | some t => if t = 0 then 0 else (now : Int) - (t : Int)
    | none => 0
  let total := counties.length
  let percent : Int := if total = 0 then 0 else jsRound ((finalCorrect : ℚ) / (total : ℚ) * 100)
  let s1 := { s with isTestMode := false, testQueue := ([] : List String),
                     testStartTime := (none : Option Nat), testCorrect := finalCorrect,
                     testResult := some ⟨finalCorrect, total, percent, durationMs⟩,
                     isRevealed := false, feedback := "", feedbackType := (none : Option String),
                     selectedCountyName := "" }
  if skipAdvance then s1 else advanceState counties r s1

/-- `handleCorrect(county)`. -/
def handleCorrect (counties : List String) (now : Nat) (r : ℚ) (s : AppState)
    (county : String) : AppState :=
  let countyStats := ensureStats s.stats county
  let updatedStats := setStat s.stats county {countyStats with correct := countyStats.correct + 1}
  let s1 := { s with stats := updatedStats, storage := updatedStats }
  if s.isTestMode then
    let nextCorrect := s.testCorrect + 1
    let s2 := { s1 with testCorrect := nextCorrect }
    if s.testQueue.length ≤ 1 then
      finishTest counties now r s2 nextCorrect false
    else
      { s2 with feedback := "Correct!", feedbackType := some "success", isRevealed := true }
  else
    { s1 with feedback := "Correct!", feedbackType := some "success", isRevealed := true }

/-- `handleIncorrect(county, guess)`. -/
def handleIncorrect (counties : List String) (now : Nat) (r : ℚ) (s : AppState)
    (county guess : String) : AppState :=
  let countyStats := ensureStats s.stats county
  let updatedStats := setStat s.stats county {countyStats with wrong := countyStats.wrong + 1}
  let s1 := { s with stats := updatedStats, storage := updatedStats }
  if s.isTestMode ∧ s.testQueue.length ≤ 1 then
    finishTest counties now r s1 s.testCorrect false
  else
    { s1 with feedback := "That was " ++ guess ++ ". Try again.",
              feedbackType := some "error", isRevealed := false }

/-- `getCountyPath(county)` against the renderable map surface, modelled as the
list of element ids present.  Returns the found id and the `console.warn`
lines emitted (one when the element is missing, as in the source). -/
def getCountyPath (surface : List String) (county : String) : Option String × List String :=
  if county = "" then (none, [])
  else if county ∈ surface then (some county, [])
  else (none, ["[map] County path not found for id: " ++ county])

/-- `handleMapClick` reduced to its core logic: an id already validated to be a
`path` click; DOM class toggling is not part of the modelled state. -/
def handleMapClick (counties : List String) (now : Nat) (r : ℚ) (s : AppState)
    (guess : String) : AppState :=
  if guess ∉ counties then s
  else if s.isRevealed then
    if guess = s.currentCounty then { s with selectedCountyName := "" }
    else { s with selectedCountyName := guess }
  else if s.currentCounty = "" then s
  else if guess = s.currentCounty then
    handleCorrect counties now r { s with selectedCountyName := "" } s.currentCounty
  else
    handleIncorrect counties now r { s with selectedCountyName := "" } s.currentCounty guess

/-- `handleShowOrNext` (the Show / Next footer button).  `surface` is the set
of ids present on the map; the reveal branch increments `wrong` and persists
before looking the element up, and only enters `Revealed` when the element is
found, warning otherwise. -/
def handleShowOrNext (counties surface : List String) (now : Nat) (r : ℚ)
    (s : AppState) : AppState :=
  if s.currentCounty = "" then s
  else if s.isRevealed then
    if s.isTestMode then
      if s.testQueue.length ≤ 1 then
        finishTest counties now r s s.testCorrect false
      else
        let remaining := s.testQueue.drop 1
        let nextCounty := remaining.headD ""
        let s1 := presentCounty { s with testQueue := remaining } nextCounty
        { s1 with isRevealed := false, feedback := "", feedbackType := none,
                  selectedCountyName := "" }
    else
      let s1 := advanceState counties r s
      { s1 with isRevealed := false, feedback := "", feedbackType := none,
                selectedCountyName := "" }
  else
    let currentStats := ensureStats s.stats s.currentCounty
    let updatedStats :=
      setStat s.stats s.currentCounty {currentStats with wrong := currentStats.wrong + 1}
    let s1 := { s with stats := updatedStats, storage := updatedStats,
                       feedback := "", feedbackType := none }
    match getCountyPath surface s.currentCounty with
    | (some _, w) =>
      { s1 with log := s1.log ++ w, selectedCountyName := "", isRevealed := true }
    | (none, w) => { s1 with log := s1.log ++ w }

/-- `startTestMode` with the shuffle randomness and `Date.now()` injected; the
stats-modal bookkeeping it also does is outside the modelled state. -/
def startTestMode (counties : List String) (rand : Nat → Nat) (now : Nat)
    (s : AppState) : AppState :=
  let order := shuffle rand counties
  if order.length = 0 then s
  else
    let s1 := { s with isTestMode := true, testQueue := order, testCorrect := 0,
                       testStartTime := some now, testResult := (none : Option TestRes),
                       selectedCountyName := "", feedback := "",
                       feedbackType := (none : Option String), isRevealed := false }
    presentCounty s1 (order.headD "")

/-- `cancelTestMode`: tears the run down and then advances to a fresh ordinary
prompt via `advanceCounty(prev.stats, prev.currentCounty)`. -/
def cancelTestMode (counties : List String) (r : ℚ) (s : AppState) : AppState :=
  let s1 := { s with isTestMode := false, testQueue := ([] : List String), testCorrect := 0,
                     testStartTime := (none : Option Nat), testResult := (none : Option TestRes),
                     selectedCountyName := "", feedback := "",
                     feedbackType := (none : Option String), isRevealed := false }
  advanceState counties r s1

/-- `completedTestCount = TOTAL_COUNTIES - testQueueLength`. -/
def completedTestCount (counties : List String) (s : AppState) : Nat :=
  counties.length - s.testQueue.length

/-- The regions of `order` that are not in `presented`, kept in the order of
`order` — the reading of C4's "regions not yet presented in the current run,
in the fixed random order chosen at start". -/
def notYetPresented (order presented : List String) : List String :=
  order.filter (fun county => !presented.contains county)

/-- A parsed JSON-ish JavaScript value, as far as `loadStats` inspects it. -/
inductive JsValue where
  | null
  | boolean (b : Bool)
  | number (q : ℚ)
  | str (s : String)
  | array (xs : List JsValue)
  | object (fields : List (String × JsValue))

/-- JS truthiness of a parsed value (`parsed && ...`). -/
def isTruthy : JsValue → Bool
  | .null => false
  | .boolean b => b
  | .number q => if q = 0 then false else true
  | .str s => if s = "" then false else true
  | .array _ => true
  | .object _ => true

/-- `typeof parsed === "object"`: true for JS objects, arrays and `null`. -/
def typeofIsObject : JsValue → Bool
  | .null => true
  | .array _ => true
  | .object _ => true
  | _ => false

/-- A value that is not object content: neither a JSON object nor an array
(`null`, booleans, numbers and strings — note that in JS an array satisfies
`typeof === "object"` and so counts as object content for `loadStats`). -/
def nonObjectContent : JsValue → Bool
  | .null => true
  | .boolean _ => true
  | .number _ => true
  | .str _ => true
  | .array _ => false
  | .object _ => false

/-- `loadStats()` from App.jsx: `raw` is `localStorage.getItem(STORAGE_KEY)`
(`none` models `null`), and `parseJson` models `JSON.parse`, whose `.error`
outcome models a thrown parse exception caught by the `try`/`catch`.  The
function is total: its Lean type already rules out an escaping exception. -/
def loadStats (raw : Option String) (parseJson : String → Except String JsValue) : JsValue :=
  match raw with
  | none => .object []
  | some content =>
    if content = "" then .object []
    else
      match parseJson content with
      | .error _ => .object []
      | .ok parsed =>
        if isTruthy parsed && typeofIsObject parsed then parsed else .object []

/-- A concrete ordinary-mode state with "Kent" as the current prompt. -/
def stateC2 : AppState := { baseState with currentCounty := "Kent" }

/-- A concrete final-test-item state: one queued item, "Kent" prompted. -/
def stateC2x : AppState :=
  { baseState with isTestMode := true, testQueue := ["Kent"], currentCounty := "Kent",
                   testStartTime := some 1 }

/-- A concrete mid-run test state: 3 correct so far, two items still queued. -/
def stateC7 : AppState :=
  { baseState with isTestMode := true, testQueue := ["Kent", "Sussex"], testCorrect := 3,
                   currentCounty := "Sussex", testStartTime := some 5 }

/-- The states reachable while a test run is underway, with `order` the fixed
shuffled order chosen at start and `presented` the ghost list of regions
presented so far (in order).  The transitions are the user actions available
mid-run that do not end the run: starting, clicking the map (guessing or
browsing; guarded away from the run-ending final-item guess), pressing Show,
and pressing Next on a non-final item. -/
inductive TestReach (counties : List String) :
    List String → List String → AppState → Prop where
  | start (rand : Nat → Nat) (now : Nat) (s0 : AppState) (hne : counties ≠ []) :
      TestReach counties (shuffle rand counties)
        [(shuffle rand counties).headD ""]
        (startTestMode counties rand now s0)
  | guess (order presented : List String) (s : AppState) (now : Nat) (r : ℚ) (g : String)
      (h : TestReach counties order presented s)
      (hstay : s.isRevealed = true ∨ 1 < s.testQueue.length) :
      TestReach counties order presented (handleMapClick counties now r s g)
  | reveal (order presented : List String) (s : AppState) (surface : List String)
      (now : Nat) (r : ℚ)
      (h : TestReach counties order presented s)
      (hnr : s.isRevealed = false) :
      TestReach counties order presented (handleShowOrNext counties surface now r s)
  | advance (order presented : List String) (s : AppState) (surface : List String)
      (now : Nat) (r : ℚ)
      (h : TestReach counties order presented s)
      (hrev : s.isRevealed = true) (hlen : 1 < s.testQueue.length) :
      TestReach counties order (presented ++ [(s.testQueue.drop 1).headD ""])
        (handleShowOrNext counties surface now r s)

/-- Looking up the updated key returns the new entry. -/
theorem ensureStats_setStat_self (stats : StatsTable) (county : String) (entry : RegionStat) :
    ensureStats (setStat stats county entry) county = entry := by
  simp [ensureStats, setStat]

/-- Other keys are untouched by a spread update. -/
theorem setStat_apply_ne (stats : StatsTable) (county : String) (entry : RegionStat)
    (c : String) (h : c ≠ county) : setStat stats county entry c = stats c := by
  simp [setStat, h]

/-- Other keys read the same through `ensureStats` after a spread update. -/
theorem ensureStats_setStat_ne (stats : StatsTable) (county : String) (entry : RegionStat)
    (c : String) (h : c ≠ county) :
    ensureStats (setStat stats county entry) c = ensureStats stats c := by
  simp [ensureStats, setStat_apply_ne stats county entry c h]

/-- A Fisher–Yates swap keeps the length. -/
theorem listSwap_length (l : List String) (i j : Nat) :
    (listSwap l i j).length = l.length := by
  unfold listSwap
  cases hi : l.get? i <;> cases hj : l.get? j <;> simp

/-- The whole Fisher–Yates loop keeps the length. -/
theorem shuffleAux_length (rand : Nat → Nat) (n : Nat) (l : List String) :
    (shuffleAux rand n l).length = l.length := by
  induction n generalizing l with
  | zero => simp [shuffleAux]
  | succ i ih => simp [shuffleAux, ih, listSwap_length]

/-- `shuffle` keeps the length. -/
theorem shuffle_length (rand : Nat → Nat) (values : List String) :
    (shuffle rand values).length = values.length := by
  unfold shuffle
  cases h : values.length with
  | zero => simpa using h
  | succ n => simp [shuffleAux_length, h]

/-- Every element of a swapped list was in the original list. -/
theorem mem_of_mem_listSwap (l : List String) (i j : Nat) (a : String)
    (h : a ∈ listSwap l i j) : a ∈ l := by
  unfold listSwap at h
  cases hi : l.get? i with
  | none => rw [hi] at h; exact h
  | some x =>
    cases hj : l.get? j with
    | none => rw [hi, hj] at h; exact h
    | some y =>
      rw [hi, hj] at h
      rcases List.mem_or_eq_of_mem_set h with h1 | h1
      · rcases List.mem_or_eq_of_mem_set h1 with h2 | h2
        · exact h2
        · exact h2 ▸ List.get?_mem hj
      · exact h1 ▸ List.get?_mem hi

/-- Every element surviving the Fisher–Yates loop was in the original list. -/
theorem mem_of_mem_shuffleAux (rand : Nat → Nat) (n : Nat) (l : List String) (a : String)
    (h : a ∈ shuffleAux rand n l) : a ∈ l := by
  induction n generalizing l with
  | zero => simpa [shuffleAux] using h
  | succ i ih =>
    rw [shuffleAux] at h
    exact mem_of_mem_listSwap _ _ _ _ (ih _ h)

/-- A shuffled list only holds elements of the original list. -/
theorem mem_of_mem_shuffle (rand : Nat → Nat) (values : List String) (a : String)
    (h : a ∈ shuffle rand values) : a ∈ values := by
  unfold shuffle at h
  cases hl : values.length with
  | zero => rw [hl] at h; exact h
  | succ n => rw [hl] at h; exact mem_of_mem_shuffleAux rand n values a h

/-- The head of a shuffle of a non-empty list is an element of the list. -/
theorem shuffle_headD_mem (rand : Nat → Nat) (values : List String) (d : String)
    (h : values ≠ []) : (shuffle rand values).headD d ∈ values := by
  have hlen : (shuffle rand values).length = values.length := shuffle_length rand values
  have hne : shuffle rand values ≠ [] := by
    intro hnil
    rw [hnil] at hlen
    exact h (List.eq_nil_of_length_eq_zero hlen.symm)
  cases hs : shuffle rand values with
  | nil => exact absurd hs hne
  | cons x xs =>
    apply mem_of_mem_shuffle rand values
    rw [hs]
    simp

/-- Every weight is at least 0.6: the unattempted base 6.5 outright, and an
attempted region's base exceeds 1 (the miss rate is non-negative, the
freshness boost positive), so even the 0.6 repeat discount keeps it ≥ 0.6. -/
theorem weightForCounty_ge (stats : StatsTable) (county : String) (previous : Option String) :
    (0.6 : ℚ) ≤ weightForCounty stats county previous := by
  unfold weightForCounty
  set entry := ensureStats stats county with hentry
  by_cases h : entry.correct + entry.wrong = 0
  · simp only [h, if_pos rfl]
    norm_num
  · simp only [if_neg h]
    have hmiss : (0 : ℚ) ≤ (entry.wrong : ℚ) / ((entry.correct : ℚ) + (entry.wrong : ℚ)) := by
      positivity
    have hfresh : (0 : ℚ) < ((entry.seen : ℚ) + 1)⁻¹ := by positivity
    by_cases hseen : entry.seen = 0 <;> by_cases hprev : prevMatches previous county
        <;> simp [hseen, hprev] <;> nlinarith [hmiss, hfresh]

/-- Every weight is strictly positive. -/
theorem weightForCounty_pos (stats : StatsTable) (county : String) (previous : Option String) :
    (0 : ℚ) < weightForCounty stats county previous :=
  lt_of_lt_of_le (by norm_num) (weightForCounty_ge stats county previous)

/-- A county returned by the roulette walk is one of the weighted counties. -/
theorem pickLoop_mem (weighted : List (String × ℚ)) (threshold : ℚ) (c : String)
    (h : pickLoop weighted threshold = some c) : c ∈ weighted.map Prod.fst := by
  induction weighted generalizing threshold with
  | nil => simp [pickLoop] at h
  | cons hd tl ih =>
    rw [pickLoop] at h
    by_cases hle : threshold - hd.2 ≤ 0
    · simp only [hle, if_pos] at h
      obtain rfl := Option.some.inj h
      simp
    · simp only [hle, if_neg, not_false_iff] at h
      simp [ih _ h]

/-- On a non-empty catalog the picker always returns a catalog member: the
walk only yields mapped counties, and the explicit last-element fallback
covers the fall-through case. -/
theorem pickNextCounty_mem (counties : List String) (stats : StatsTable)
    (previous : Option String) (r : ℚ) (h : counties ≠ []) :
    ∃ c ∈ counties, pickNextCounty counties stats previous r = some c := by
  unfold pickNextCounty
  set weighted := counties.map (fun county => (county, weightForCounty stats county previous))
    with hw
  cases hp : pickLoop weighted (r * (weighted.map Prod.snd).sum) with
  | some c =>
    refine ⟨c, ?_, by simp [Option.orElse, hp]⟩
    have := pickLoop_mem _ _ _ hp
    simpa [hw, List.map_map, Function.comp] using this
  | none =>
    have hg : counties.getLast? = some (counties.getLast h) :=
      List.getLast?_eq_getLast counties h
    exact ⟨counties.getLast h, List.getLast_mem h, by simp [Option.orElse, hp, hg]⟩

/-- Whatever a non-object value is, it fails the `parsed && typeof parsed
=== "object"` guard. -/
theorem nonObject_fails_guard (v : JsValue) (h : nonObjectContent v = true) :
    (isTruthy v && typeofIsObject v) = false := by
  cases v <;> simp_all [nonObjectContent, isTruthy, typeofIsObject]

/-- `advanceState` only touches `stats`, `currentCounty` and `storage`. -/
theorem advanceState_fields (counties : List String) (r : ℚ) (s : AppState) :
    (advanceState counties r s).testResult = s.testResult ∧
    (advanceState counties r s).isTestMode = s.isTestMode ∧
    (advanceState counties r s).testQueue = s.testQueue ∧
    (advanceState counties r s).testCorrect = s.testCorrect ∧
    (advanceState counties r s).isRevealed = s.isRevealed ∧
    (advanceState counties r s).testStartTime = s.testStartTime ∧
    (advanceState counties r s).feedback = s.feedback := by
  unfold advanceState
  cases pickNextCounty counties s.stats (some s.currentCounty) r <;> simp [presentCounty]

/-- For a non-negative percent, the top-down scan of `TEST_MESSAGES` finds a
bucket, the picked message lies in its pool, a percent of 100 or more lands in
the threshold-100 bucket, and a percent below 50 lands in the threshold-0
bucket. -/
theorem bucketFor_spec (rand : Nat → Nat) (p : Int) (hp : 0 ≤ p) :
    ∃ bucket, bucketFor p = some bucket ∧
      pickTestMessage rand p ∈ bucket.messages ∧
      (100 ≤ p → bucket = bucket100) ∧
      (p < 50 → bucket = bucket0) := by
  have step : ∀ bucket : MessageBucket, bucketFor p = some bucket → bucket.messages ≠ [] →
      pickTestMessage rand p ∈ bucket.messages := by
    intro bucket hb hne
    simp only [pickTestMessage, hb]
    exact shuffle_headD_mem _ _ _ hne
  by_cases h100 : (100 : Int) ≤ p
  · have hb : bucketFor p = some bucket100 := by
      unfold bucketFor TEST_MESSAGES
      rw [List.find?_cons_of_pos _ (by simpa [bucket100] using h100)]
    exact ⟨bucket100, hb, step _ hb (by simp [bucket100]), fun _ => rfl,
      fun hlt => by omega⟩
  · by_cases h95 : (95 : Int) ≤ p
    · have hb : bucketFor p = some bucket95 := by
        unfold bucketFor TEST_MESSAGES
        rw [List.find?_cons_of_neg _ (by simpa [bucket100] using h100),
          List.find?_cons_of_pos _ (by simpa [bucket95] using h95)]
      exact ⟨bucket95, hb, step _ hb (by simp [bucket95]), fun hc => by omega,
        fun hlt => by omega⟩
    · by_cases h85 : (85 : Int) ≤ p
      · have hb : bucketFor p = some bucket85 := by
          unfold bucketFor TEST_MESSAGES
          rw [List.find?_cons_of_neg _ (by simpa [bucket100] using h100),
            List.find?_cons_of_neg _ (by simpa [bucket95] using h95),
            List.find?_cons_of_pos _ (by simpa [bucket85] using h85)]
        exact ⟨bucket85, hb, step _ hb (by simp [bucket85]), fun hc => by omega,
          fun hlt => by omega⟩
      · by_cases h70 : (70 : Int) ≤ p
        · have hb : bucketFor p = some bucket70 := by
            unfold bucketFor TEST_MESSAGES
            rw [List.find?_cons_of_neg _ (by simpa [bucket100] using h100),
              List.find?_cons_of_neg _ (by simpa [bucket95] using h95),
              List.find?_cons_of_neg _ (by simpa [bucket85] using h85),
              List.find?_cons_of_pos _ (by simpa [bucket70] using h70)]
          exact ⟨bucket70, hb, step _ hb (by simp [bucket70]), fun hc => by omega,
            fun hlt => by omega⟩
        · by_cases h50 : (50 : Int) ≤ p
          · have hb : bucketFor p = some bucket50 := by
              unfold bucketFor TEST_MESSAGES
              rw [List.find?_cons_of_neg _ (by simpa [bucket100] using h100),
                List.find?_cons_of_neg _ (by simpa [bucket95] using h95),
                List.find?_cons_of_neg _ (by simpa [bucket85] using h85),
                List.find?_cons_of_neg _ (by simpa [bucket70] using h70),
                List.find?_cons_of_pos _ (by simpa [bucket50] using h50)]
            exact ⟨bucket50, hb, step _ hb (by simp [bucket50]), fun hc => by omega,
              fun hlt => by omega⟩
          · have hb : bucketFor p = some bucket0 := by
              unfold bucketFor TEST_MESSAGES
              rw [List.find?_cons_of_neg _ (by simpa [bucket100] using h100),
                List.find?_cons_of_neg _ (by simpa [bucket95] using h95),
                List.find?_cons_of_neg _ (by simpa [bucket85] using h85),
                List.find?_cons_of_neg _ (by simpa [bucket70] using h70),
                List.find?_cons_of_neg _ (by simpa [bucket50] using h50),
                List.find?_cons_of_pos _ (by simpa [bucket0] using hp)]
            exact ⟨bucket0, hb, step _ hb (by simp [bucket0]), fun hc => by omega,
              fun _ => rfl⟩

/-- Presenting a county only ever bumps `seen`: `correct` and `wrong` read
the same for every county. -/
theorem presentCounty_counts (s : AppState) (next c : String) :
    (ensureStats (presentCounty s next).stats c).correct =
      (ensureStats s.stats c).correct ∧
    (ensureStats (presentCounty s next).stats c).wrong =
      (ensureStats s.stats c).wrong := by
  by_cases hc : c = next
  · subst hc
    simp [presentCounty, applyNextCounty, ensureStats_setStat_self]
  · simp [presentCounty, applyNextCounty, ensureStats_setStat_ne _ _ _ _ hc]

/-- Advancing to a weighted next prompt only ever bumps `seen`. -/
theorem advanceState_counts (counties : List String) (r : ℚ) (s : AppState) (c : String) :
    (ensureStats (advanceState counties r s).stats c).correct =
      (ensureStats s.stats c).correct ∧
    (ensureStats (advanceState counties r s).stats c).wrong =
      (ensureStats s.stats c).wrong := by
  unfold advanceState
  cases pickNextCounty counties s.stats (some s.currentCounty) r with
  | none => exact ⟨rfl, rfl⟩
  | some next => exact presentCounty_counts s next c

/-- Finishing a run leaves every county's `correct` and `wrong` unchanged
(the post-run advance only bumps `seen`) and leaves `Revealed` off. -/
theorem finishTest_counts (counties : List String) (now : Nat) (r : ℚ) (s : AppState)
    (finalCorrect : Nat) (c : String) :
    (ensureStats (finishTest counties now r s finalCorrect false).stats c).correct =
      (ensureStats s.stats c).correct ∧
    (ensureStats (finishTest counties now r s finalCorrect false).stats c).wrong =
      (ensureStats s.stats c).wrong ∧
    (finishTest counties now r s finalCorrect false).isRevealed = false := by
  unfold finishTest
  simp only [Bool.false_eq_true, if_false]
  refine ⟨(advanceState_counts counties r _ c).1, (advanceState_counts counties r _ c).2, ?_⟩
  rw [(advanceState_fields counties r _).2.2.2.2.1]

/-- `handleCorrect` adds exactly 1 to the guessed county's `correct`, touches
no county's `wrong`, and — unless it is ending the run — enters `Revealed`. -/
theorem handleCorrect_counts (counties : List String) (now : Nat) (r : ℚ)
    (s : AppState) (county c : String) :
    (ensureStats (handleCorrect counties now r s county).stats county).correct =
      (ensureStats s.stats county).correct + 1 ∧
    (ensureStats (handleCorrect counties now r s county).stats c).wrong =
      (ensureStats s.stats c).wrong ∧
    (¬(s.isTestMode = true ∧ s.testQueue.length ≤ 1) →
      (handleCorrect counties now r s county).isRevealed = true) := by
  have hself : ∀ st : StatsTable, (ensureStats (setStat st county
      {ensureStats st county with correct := (ensureStats st county).correct + 1})
        county).correct = (ensureStats st county).correct + 1 := by
    intro st
    rw [ensureStats_setStat_self]
  have hwrong : ∀ st : StatsTable, (ensureStats (setStat st county
      {ensureStats st county with correct := (ensureStats st county).correct + 1})
        c).wrong = (ensureStats st c).wrong := by
    intro st
    by_cases hc : c = county
    · subst hc
      rw [ensureStats_setStat_self]
    · rw [ensureStats_setStat_ne _ _ _ _ hc]
  unfold handleCorrect
  by_cases hmode : s.isTestMode = true
  · by_cases hlen : s.testQueue.length ≤ 1
    · rw [if_pos hmode, if_pos hlen]
      refine ⟨?_, ?_, fun hrun => absurd ⟨hmode, hlen⟩ hrun⟩
      · rw [(finishTest_counts counties now r _ _ county).1]
        exact hself s.stats
      · rw [(finishTest_counts counties now r _ _ c).2.1]
        exact hwrong s.stats
    · rw [if_pos hmode, if_neg hlen]
      exact ⟨hself s.stats, hwrong s.stats, fun _ => rfl⟩
  · rw [if_neg hmode]
    exact ⟨hself s.stats, hwrong s.stats, fun _ => rfl⟩

/-- `handleIncorrect` adds exactly 1 to the prompted county's `wrong`, touches
no county's `correct`, and never turns `Revealed` on. -/
theorem handleIncorrect_counts (counties : List String) (now : Nat) (r : ℚ)
    (s : AppState) (county guess c : String) :
    (ensureStats (handleIncorrect counties now r s county guess).stats county).wrong =
      (ensureStats s.stats county).wrong + 1 ∧
    (ensureStats (handleIncorrect counties now r s county guess).stats c).correct =
      (ensureStats s.stats c).correct ∧
    (handleIncorrect counties now r s county guess).isRevealed = false := by
  have hself : ∀ st : StatsTable, (ensureStats (setStat st county
      {ensureStats st county with wrong := (ensureStats st county).wrong + 1})
        county).wrong = (ensureStats st county).wrong + 1 := by
    intro st
    rw [ensureStats_setStat_self]
  have hcor : ∀ st : StatsTable, (ensureStats (setStat st county
      {ensureStats st county with wrong := (ensureStats st county).wrong + 1})
        c).correct = (ensureStats st c).correct := by
    intro st
    by_cases hc : c = county
    · subst hc
      rw [ensureStats_setStat_self]
    · rw [ensureStats_setStat_ne _ _ _ _ hc]
  unfold handleIncorrect
  by_cases hcond : s.isTestMode = true ∧ s.testQueue.length ≤ 1
  · rw [if_pos hcond]
    refine ⟨?_, ?_, (finishTest_counts counties now r _ _ c).2.2⟩
    · rw [(finishTest_counts counties now r _ _ county).2.1]
      exact hself s.stats
    · rw [(finishTest_counts counties now r _ _ c).1]
      exact hcor s.stats
  · rw [if_neg hcond]
    exact ⟨hself s.stats, hcor s.stats, rfl⟩

/-- The `TestResult` that `finishTest` records: the raw counts, the rounded
percent, and the measured duration. -/
theorem finishTest_testResult (counties : List String) (now : Nat) (r : ℚ)
    (s : AppState) (finalCorrect : Nat) (h : counties.length ≠ 0) :
    (finishTest counties now r s finalCorrect false).testResult =
      some ⟨finalCorrect, counties.length,
        jsRound ((finalCorrect : ℚ) / (counties.length : ℚ) * 100),
        match s.testStartTime with
        | some t => if t = 0 then 0 else (now : Int) - (t : Int)
        | none => 0⟩ := by
  unfold finishTest
  simp only [Bool.false_eq_true, if_false]
  rw [(advanceState_fields counties r _).1]
  simp [h]

/-- `handleCorrect` leaves test mode, queue and prompt alone when it is not
ending the run. -/
theorem handleCorrect_frame (counties : List String) (now : Nat) (r : ℚ)
    (s : AppState) (county : String)
    (hrun : ¬(s.isTestMode = true ∧ s.testQueue.length ≤ 1)) :
    (handleCorrect counties now r s county).isTestMode = s.isTestMode ∧
    (handleCorrect counties now r s county).testQueue = s.testQueue ∧
    (handleCorrect counties now r s county).currentCounty = s.currentCounty := by
  unfold handleCorrect
  cases hmode : s.isTestMode
  · simp [hmode]
  · have hlen : ¬(s.testQueue.length ≤ 1) := fun hl => hrun ⟨hmode, hl⟩
    simp [hmode, hlen]

/-- `handleIncorrect` leaves test mode, queue and prompt alone when it is not
ending the run. -/
theorem handleIncorrect_frame (counties : List String) (now : Nat) (r : ℚ)
    (s : AppState) (county guess : String)
    (hrun : ¬(s.isTestMode = true ∧ s.testQueue.length ≤ 1)) :
    (handleIncorrect counties now r s county guess).isTestMode = s.isTestMode ∧
    (handleIncorrect counties now r s county guess).testQueue = s.testQueue ∧
    (handleIncorrect counties now r s county guess).currentCounty = s.currentCounty := by
  unfold handleIncorrect
  rw [if_neg hrun]
  exact ⟨rfl, rfl, rfl⟩

/-- A map click that does not end the run (the prompt is revealed, or more
than one item remains queued) leaves test mode, queue and prompt alone. -/
theorem handleMapClick_test_frame (counties : List String) (now : Nat) (r : ℚ)
    (s : AppState) (g : String)
    (hstay : s.isRevealed = true ∨ 1 < s.testQueue.length) :
    (handleMapClick counties now r s g).isTestMode = s.isTestMode ∧
    (handleMapClick counties now r s g).testQueue = s.testQueue ∧
    (handleMapClick counties now r s g).currentCounty = s.currentCounty := by
  unfold handleMapClick
  by_cases hmem : g ∉ counties
  · simp [hmem]
  · rw [if_neg hmem]
    cases hrev : s.isRevealed
    · have hlen : 1 < s.testQueue.length := by
        rcases hstay with hs | hs
        · rw [hrev] at hs
          exact absurd hs (by simp)
        · exact hs
      have hrun : ¬(s.isTestMode = true ∧ s.testQueue.length ≤ 1) := by
        rintro ⟨_, hl⟩
        omega
      simp only [hrev, Bool.false_eq_true, if_false]
      by_cases hcc : s.currentCounty = ""
      · simp [hcc]
      · rw [if_neg hcc]
        by_cases hg : g = s.currentCounty
        · rw [if_pos hg]
          exact handleCorrect_frame counties now r _ s.currentCounty hrun
        · rw [if_neg hg]
          exact handleIncorrect_frame counties now r _ s.currentCounty g hrun
    · simp only [hrev, if_true]
      by_cases hg : g = s.currentCounty <;> simp [hg]

/-- Pressing Show (while not revealed) leaves test mode, queue and prompt
alone, whether or not the element is found. -/
theorem handleShowOrNext_reveal_frame (counties surface : List String) (now : Nat)
    (r : ℚ) (s : AppState) (hnr : s.isRevealed = false) :
    (handleShowOrNext counties surface now r s).isTestMode = s.isTestMode ∧
    (handleShowOrNext counties surface now r s).testQueue = s.testQueue ∧
    (handleShowOrNext counties surface now r s).currentCounty = s.currentCounty := by
  unfold handleShowOrNext
  by_cases hcc : s.currentCounty = ""
  · simp [hcc]
  · rw [if_neg hcc]
    simp only [hnr, Bool.false_eq_true, if_false]
    rcases hgp : getCountyPath surface s.currentCounty with ⟨o, w⟩
    cases o <;> simp [hgp]

/-- Pressing Next mid-run (revealed, test mode, more than one item queued)
pops the queue's front and presents the next item. -/
theorem handleShowOrNext_advance_eq (counties surface : List String) (now : Nat)
    (r : ℚ) (s : AppState)
    (hcc : s.currentCounty ≠ "") (hrev : s.isRevealed = true)
    (htest : s.isTestMode = true) (hlen : 1 < s.testQueue.length) :
    handleShowOrNext counties surface now r s =
      { presentCounty { s with testQueue := s.testQueue.drop 1 }
          ((s.testQueue.drop 1).headD "") with
        isRevealed := false, feedback := "", feedbackType := none,
        selectedCountyName := "" } := by
  unfold handleShowOrNext
  have hq : ¬(s.testQueue.length ≤ 1) := by omega
  simp [if_neg hcc, hrev, htest, hq]

/-- `startTestMode` on a catalog whose shuffle is non-empty: enter test mode
with the shuffled queue and present its first region. -/
theorem startTestMode_eq (counties : List String) (rand : Nat → Nat) (now : Nat)
    (s : AppState) (h : (shuffle rand counties).length ≠ 0) :
    startTestMode counties rand now s =
      presentCounty
        { s with isTestMode := true, testQueue := shuffle rand counties, testCorrect := 0,
                 testStartTime := some now, testResult := (none : Option TestRes),
                 selectedCountyName := "", feedback := "",
                 feedbackType := (none : Option String), isRevealed := false }
        ((shuffle rand counties).headD "") := by
  unfold startTestMode
  simp [h]

/-- The head of the `m`-th drop of a list is its `m`-th element. -/
theorem drop_headD_getElem (l : List String) (m : Nat) (hm : m < l.length) (d : String) :
    (l.drop m).headD d = l[m] := by
  induction l generalizing m with
  | nil => simp at hm
  | cons a t ih =>
    cases m with
    | zero => simp
    | succ m2 => simpa using ih m2 (by simpa using hm)

/-- Extending an `m`-element prefix by the `m`-th element gives the
`(m+1)`-element prefix. -/
theorem take_append_getElem (l : List String) (m : Nat) (hm : m < l.length) :
    l.take m ++ [l[m]] = l.take (m + 1) := by
  induction l generalizing m with
  | nil => simp at hm
  | cons a t ih =>
    cases m with
    | zero => simp
    | succ m2 =>
      have hm2 : m2 < t.length := by
        simp only [List.length_cons] at hm
        omega
      simp [ih m2 hm2]

/-- C1: for a region whose statistics give attempts = correct + wrong > 0, the
selector weight is 1 + 4*(wrong/attempts) + 1/(seen+1), with 0.4 added when
seen = 0, and the whole multiplied by 0.6 when the region equals the
immediately previous region (`prevMatches` is the source's JS truthiness test
`previous && county === previous`). -/
theorem claim1_weight_formula_attempted (stats : StatsTable) (county : String)
    (previous : Option String)
    (h : 0 < (ensureStats stats county).correct + (ensureStats stats county).wrong) :
    weightForCounty stats county previous =
      (1 + 4 * (((ensureStats stats county).wrong : ℚ) /
          (((ensureStats stats county).correct + (ensureStats stats county).wrong : ℕ) : ℚ))
        + 1 / (((ensureStats stats county).seen : ℚ) + 1)
        + (if (ensureStats stats county).seen = 0 then (0.4 : ℚ) else 0))
      * (if prevMatches previous county then (0.6 : ℚ) else 1) := by
  unfold weightForCounty
  have h0 : ¬((ensureStats stats county).correct + (ensureStats stats county).wrong = 0) := by
    omega
  simp only [if_neg h0]
  by_cases hseen : (ensureStats stats county).seen = 0 <;>
    by_cases hprev : prevMatches previous county <;>
    simp only [hseen, hprev, eq_self_iff_true, if_true, if_false, Bool.false_eq_true] <;>
    ring

/-- C1 witness: a region with seen = 2, correct = 1, wrong = 1 satisfies the
attempts > 0 hypothesis and the formula. -/
theorem claim1_witness :
    0 < (ensureStats (setStat emptyStats "Kent" ⟨2, 1, 1⟩) "Kent").correct +
        (ensureStats (setStat emptyStats "Kent" ⟨2, 1, 1⟩) "Kent").wrong ∧
    weightForCounty (setStat emptyStats "Kent" ⟨2, 1, 1⟩) "Kent" none =
      (1 + 4 * (((ensureStats (setStat emptyStats "Kent" ⟨2, 1, 1⟩) "Kent").wrong : ℚ) /
          (((ensureStats (setStat emptyStats "Kent" ⟨2, 1, 1⟩) "Kent").correct +
            (ensureStats (setStat emptyStats "Kent" ⟨2, 1, 1⟩) "Kent").wrong : ℕ) : ℚ))
        + 1 / (((ensureStats (setStat emptyStats "Kent" ⟨2, 1, 1⟩) "Kent").seen : ℚ) + 1)
        + (if (ensureStats (setStat emptyStats "Kent" ⟨2, 1, 1⟩) "Kent").seen = 0
           then (0.4 : ℚ) else 0))
      * (if prevMatches none "Kent" then (0.6 : ℚ) else 1) :=
  ⟨by decide, claim1_weight_formula_attempted (setStat emptyStats "Kent" ⟨2, 1, 1⟩) "Kent" none
    (by decide)⟩

/-- C2 counterexample: on the final queued test item, a correct guess for the
current region increments its `correct` counter — but does not enter
`Revealed`: the run finishes (a `TestResult` appears) and `isRevealed` stays
false, contrary to the claim's unqualified "enters Revealed". -/
theorem claim2_counterexample :
    stateC2x.isRevealed = false ∧
    stateC2x.currentCounty = "Kent" ∧
    (ensureStats (handleMapClick ["Kent"] 5 0 stateC2x "Kent").stats "Kent").correct =
      (ensureStats stateC2x.stats "Kent").correct + 1 ∧
    (handleMapClick ["Kent"] 5 0 stateC2x "Kent").isRevealed = false ∧
    (handleMapClick ["Kent"] 5 0 stateC2x "Kent").testResult ≠ none := by
  have hred : handleMapClick ["Kent"] 5 0 stateC2x "Kent" =
      handleCorrect ["Kent"] 5 0 { stateC2x with selectedCountyName := "" } "Kent" := by
    unfold handleMapClick
    simp [stateC2x, baseState]
  have hfin : handleCorrect ["Kent"] 5 0 { stateC2x with selectedCountyName := "" } "Kent" =
      finishTest ["Kent"] 5 0
        { { stateC2x with selectedCountyName := "" } with
          stats := setStat stateC2x.stats "Kent"
            {ensureStats stateC2x.stats "Kent" with
              correct := (ensureStats stateC2x.stats "Kent").correct + 1},
          storage := setStat stateC2x.stats "Kent"
            {ensureStats stateC2x.stats "Kent" with
              correct := (ensureStats stateC2x.stats "Kent").correct + 1},
          testCorrect := 1 }
        1 false := by
    unfold handleCorrect
    simp [stateC2x, baseState]
  refine ⟨rfl, rfl, ?_, ?_, ?_⟩
  · rw [hred]
    exact (handleCorrect_counts ["Kent"] 5 0 { stateC2x with selectedCountyName := "" }
      "Kent" "Kent").1
  · rw [hred, hfin]
    exact (finishTest_counts ["Kent"] 5 0 _ 1 "Kent").2.2
  · rw [hred, hfin, finishTest_testResult ["Kent"] 5 0 _ 1 (by simp)]
    simp

/-- C2 amended: while Prompting, a guess equal to the current region adds
exactly 1 to that region's `correct` and touches no region's `wrong`; a
mismatched guess adds exactly 1 to the current region's `wrong`, touches no
region's `correct`, and remains in `Prompting` (so each repeated wrong guess
increments `wrong` again).  The correct guess enters `Revealed` except in the
one run-ending case — test mode with at most one queued item — where the
source calls `finishTest` instead and `Revealed` stays off. -/
theorem claim2_guess_transitions (counties : List String) (now : Nat) (r : ℚ)
    (s : AppState) (guess : String)
    (hmem : guess ∈ counties) (hcc : s.currentCounty ≠ "")
    (hprompt : s.isRevealed = false) :
    (guess = s.currentCounty →
      (ensureStats (handleMapClick counties now r s guess).stats guess).correct =
        (ensureStats s.stats guess).correct + 1 ∧
      (∀ c, (ensureStats (handleMapClick counties now r s guess).stats c).wrong =
        (ensureStats s.stats c).wrong) ∧
      (¬(s.isTestMode = true ∧ s.testQueue.length ≤ 1) →
        (handleMapClick counties now r s guess).isRevealed = true)) ∧
    (guess ≠ s.currentCounty →
      (ensureStats (handleMapClick counties now r s guess).stats s.currentCounty).wrong =
        (ensureStats s.stats s.currentCounty).wrong + 1 ∧
      (∀ c, (ensureStats (handleMapClick counties now r s guess).stats c).correct =
        (ensureStats s.stats c).correct) ∧
      (handleMapClick counties now r s guess).isRevealed = false) := by
  have hnotmem : ¬(guess ∉ counties) := not_not_intro hmem
  constructor
  · intro hg
    subst hg
    have hred : handleMapClick counties now r s s.currentCounty =
        handleCorrect counties now r { s with selectedCountyName := "" } s.currentCounty := by
      unfold handleMapClick
      simp [hnotmem, hprompt, hcc]
    rw [hred]
    exact ⟨(handleCorrect_counts counties now r _ s.currentCounty s.currentCounty).1,
      fun c => (handleCorrect_counts counties now r _ s.currentCounty c).2.1,
      fun hrun => (handleCorrect_counts counties now r _ s.currentCounty s.currentCounty).2.2
        hrun⟩
  · intro hg
    have hred : handleMapClick counties now r s guess =
        handleIncorrect counties now r { s with selectedCountyName := "" }
          s.currentCounty guess := by
      unfold handleMapClick
      simp [hnotmem, hprompt, hcc, hg]
    rw [hred]
    exact ⟨(handleIncorrect_counts counties now r _ s.currentCounty guess s.currentCounty).1,
      fun c => (handleIncorrect_counts counties now r _ s.currentCounty guess c).2.1,
      (handleIncorrect_counts counties now r _ s.currentCounty guess s.currentCounty).2.2⟩

/-- C2 witness: on a two-county catalog, in ordinary mode, with "Kent" as the
current prompt. -/
theorem claim2_witness :
    (("Kent" : String) ∈ (["Kent", "Sussex"] : List String) ∧ stateC2.currentCounty ≠ "" ∧
      stateC2.isRevealed = false) ∧
    (("Kent" : String) = stateC2.currentCounty →
      (ensureStats (handleMapClick ["Kent", "Sussex"] 0 0 stateC2 "Kent").stats "Kent").correct =
        (ensureStats stateC2.stats "Kent").correct + 1 ∧
      (∀ c, (ensureStats (handleMapClick ["Kent", "Sussex"] 0 0 stateC2 "Kent").stats c).wrong =
        (ensureStats stateC2.stats c).wrong) ∧
      (¬(stateC2.isTestMode = true ∧ stateC2.testQueue.length ≤ 1) →
        (handleMapClick ["Kent", "Sussex"] 0 0 stateC2 "Kent").isRevealed = true)) ∧
    (("Kent" : String) ≠ stateC2.currentCounty →
      (ensureStats (handleMapClick ["Kent", "Sussex"] 0 0 stateC2 "Kent").stats
          stateC2.currentCounty).wrong =
        (ensureStats stateC2.stats stateC2.currentCounty).wrong + 1 ∧
      (∀ c, (ensureStats (handleMapClick ["Kent", "Sussex"] 0 0 stateC2 "Kent").stats c).correct =
        (ensureStats stateC2.stats c).correct) ∧
      (handleMapClick ["Kent", "Sussex"] 0 0 stateC2 "Kent").isRevealed = false) :=
  ⟨⟨by simp, by simp [stateC2, baseState], rfl⟩,
    (claim2_guess_transitions ["Kent", "Sussex"] 0 0 stateC2 "Kent" (by simp)
      (by simp [stateC2, baseState]) rfl).1,
    (claim2_guess_transitions ["Kent", "Sussex"] 0 0 stateC2 "Kent" (by simp)
      (by simp [stateC2, baseState]) rfl).2⟩

/-- C3: presenting a region as the new prompt — the single `applyNextCounty`
path shared by ordinary advancement, test start, test advancement and the
post-test advance — bumps exactly that region's `seen` by 1, leaves its
`correct`/`wrong` and every other region's entry untouched, and persists the
whole updated table, independent of any subsequent guess. -/
theorem claim3_present_increments_seen (s : AppState) (county : String) :
    (ensureStats (presentCounty s county).stats county).seen =
      (ensureStats s.stats county).seen + 1 ∧
    (ensureStats (presentCounty s county).stats county).correct =
      (ensureStats s.stats county).correct ∧
    (ensureStats (presentCounty s county).stats county).wrong =
      (ensureStats s.stats county).wrong ∧
    (∀ c, c ≠ county → (presentCounty s county).stats c = s.stats c) ∧
    (presentCounty s county).storage = (presentCounty s county).stats ∧
    (presentCounty s county).currentCounty = county := by
  refine ⟨?_, ?_, ?_, ?_, rfl, rfl⟩
  · simp [presentCounty, applyNextCounty, ensureStats_setStat_self]
  · simp [presentCounty, applyNextCounty, ensureStats_setStat_self]
  · simp [presentCounty, applyNextCounty, ensureStats_setStat_self]
  · intro c hc
    simp [presentCounty, applyNextCounty, setStat_apply_ne _ _ _ _ hc]

/-- C4 counterexample (the claim as stated): immediately after a test run
starts, the first region of the shuffled order has been presented — its `seen`
counter is already incremented — yet it is still at the front of the queue, so
the queue is not the list of regions not yet presented. -/
theorem claim4_counterexample :
    TestReach ["Kent", "Sussex"] (shuffle (fun _ => 0) ["Kent", "Sussex"])
      [(shuffle (fun _ => 0) ["Kent", "Sussex"]).headD ""]
      (startTestMode ["Kent", "Sussex"] (fun _ => 0) 0 baseState) ∧
    (ensureStats (startTestMode ["Kent", "Sussex"] (fun _ => 0) 0 baseState).stats
        ((shuffle (fun _ => 0) ["Kent", "Sussex"]).headD "")).seen = 1 ∧
    (startTestMode ["Kent", "Sussex"] (fun _ => 0) 0 baseState).testQueue ≠
      notYetPresented (shuffle (fun _ => 0) ["Kent", "Sussex"])
        [(shuffle (fun _ => 0) ["Kent", "Sussex"]).headD ""] := by
  refine ⟨TestReach.start (fun _ => 0) 0 baseState (by simp), ?_, ?_⟩ <;> decide

/-- C4 amended: throughout a test run the queue is a suffix of the fixed
shuffled order whose head is the current (already presented) region: after `k`
advances the queue is `order.drop k`, the regions presented so far are
`order.take (k+1)` — the queue therefore holds the current region followed by
the not-yet-presented ones — and `completedTestCount = |catalog| - |queue|`
equals `k`, the number of items already resolved and advanced past.  Region
identifiers are non-empty strings (`hvalid`). -/
theorem claim4_queue_invariant (counties order presented : List String) (s : AppState)
    (hreach : TestReach counties order presented s) (hvalid : "" ∉ counties) :
    s.isTestMode = true ∧ order.length = counties.length ∧
    (∀ c ∈ order, c ∈ counties) ∧
    ∃ k, ∃ hk : k < order.length,
      s.testQueue = order.drop k ∧
      presented = order.take (k + 1) ∧
      s.currentCounty = order[k] ∧
      completedTestCount counties s = k := by
  induction hreach with
  | start rand now s0 hne =>
    have hlen0 : (shuffle rand counties).length = counties.length :=
      shuffle_length rand counties
    have hne2 : (shuffle rand counties).length ≠ 0 := by
      rw [hlen0]
      simpa using hne
    rw [startTestMode_eq counties rand now s0 hne2]
    refine ⟨rfl, hlen0, fun c hc => mem_of_mem_shuffle rand counties c hc,
      0, by omega, ?_, ?_, ?_, ?_⟩
    · simp [presentCounty]
    · cases hs : shuffle rand counties with
      | nil => exact absurd (by simp [hs]) hne2
      | cons a t => simp
    · have : (0 : Nat) < (shuffle rand counties).length := by omega
      simpa [presentCounty, applyNextCounty] using
        drop_headD_getElem (shuffle rand counties) 0 this ""
    · simp [completedTestCount, presentCounty]
      omega
  | guess order presented s now r g h hstay ih =>
    obtain ⟨htm, hol, hsub, k, hk, hq, hpres, hcur, hcomp⟩ := ih
    obtain ⟨f1, f2, f3⟩ := handleMapClick_test_frame counties now r s g hstay
    exact ⟨f1.trans htm, hol, hsub, k, hk, f2.trans hq, hpres, f3.trans hcur,
      by simpa [completedTestCount, f2] using hcomp⟩
  | reveal order presented s surface now r h hnr ih =>
    obtain ⟨htm, hol, hsub, k, hk, hq, hpres, hcur, hcomp⟩ := ih
    obtain ⟨f1, f2, f3⟩ := handleShowOrNext_reveal_frame counties surface now r s hnr
    exact ⟨f1.trans htm, hol, hsub, k, hk, f2.trans hq, hpres, f3.trans hcur,
      by simpa [completedTestCount, f2] using hcomp⟩
  | advance order presented s surface now r h hrev hlen ih =>
    obtain ⟨htm, hol, hsub, k, hk, hq, hpres, hcur, hcomp⟩ := ih
    have hmemo : order[k] ∈ counties := hsub _ (List.getElem_mem hk)
    have hcc : s.currentCounty ≠ "" := by
      rw [hcur]
      intro he
      rw [he] at hmemo
      exact hvalid hmemo
    have hqlen : s.testQueue.length = order.length - k := by
      rw [hq, List.length_drop]
    have hk1 : k + 1 < order.length := by omega
    rw [handleShowOrNext_advance_eq counties surface now r s hcc hrev htm hlen]
    have hdrop : s.testQueue.drop 1 = order.drop (k + 1) := by
      rw [hq, List.drop_drop]
    have hhead : (s.testQueue.drop 1).headD "" = order[k + 1] := by
      rw [hdrop]
      exact drop_headD_getElem order (k + 1) hk1 ""
    refine ⟨htm, hol, hsub, k + 1, hk1, ?_, ?_, ?_, ?_⟩
    · simpa [presentCounty] using hdrop
    · rw [hpres, hhead]
      exact take_append_getElem order (k + 1) hk1
    · simpa [presentCounty, applyNextCounty] using hhead
    · simp only [completedTestCount, presentCounty]
      rw [hdrop, List.length_drop]
      omega

/-- C4 witness: the amended invariant at the freshly started two-county run. -/
theorem claim4_witness :
    (("" : String) ∉ (["Kent", "Sussex"] : List String)) ∧
    ((startTestMode ["Kent", "Sussex"] (fun _ => 0) 0 baseState).isTestMode = true ∧
      (shuffle (fun _ => 0) ["Kent", "Sussex"]).length =
        (["Kent", "Sussex"] : List String).length ∧
      (∀ c ∈ shuffle (fun _ => 0) ["Kent", "Sussex"],
        c ∈ (["Kent", "Sussex"] : List String)) ∧
      ∃ k, ∃ hk : k < (shuffle (fun _ => 0) ["Kent", "Sussex"]).length,
        (startTestMode ["Kent", "Sussex"] (fun _ => 0) 0 baseState).testQueue =
          (shuffle (fun _ => 0) ["Kent", "Sussex"]).drop k ∧
        [(shuffle (fun _ => 0) ["Kent", "Sussex"]).headD ""] =
          (shuffle (fun _ => 0) ["Kent", "Sussex"]).take (k + 1) ∧
        (startTestMode ["Kent", "Sussex"] (fun _ => 0) 0 baseState).currentCounty =
          (shuffle (fun _ => 0) ["Kent", "Sussex"])[k] ∧
        completedTestCount ["Kent", "Sussex"]
          (startTestMode ["Kent", "Sussex"] (fun _ => 0) 0 baseState) = k) :=
  ⟨by simp, claim4_queue_invariant ["Kent", "Sussex"] _ _ _
    (TestReach.start (fun _ => 0) 0 baseState (by simp)) (by simp)⟩

/-- C5: when a test run finishes, the recorded percent is
round(100*correctCount/total), and the summary message is drawn from the pool
of the first bucket — scanning thresholds 100, 95, 85, 70, 50, 0 from highest
to lowest — whose threshold is ≤ percent; an all-correct run lands in the
threshold-100 bucket and a zero-correct run in the threshold-0 bucket. -/
theorem claim5_finish_summary (counties : List String) (now : Nat) (r : ℚ)
    (s : AppState) (finalCorrect : Nat) (rand : Nat → Nat)
    (h : counties ≠ []) :
    ∃ res bucket,
      (finishTest counties now r s finalCorrect false).testResult = some res ∧
      res.percent = jsRound (100 * (finalCorrect : ℚ) / (counties.length : ℚ)) ∧
      bucketFor res.percent = some bucket ∧
      pickTestMessage rand res.percent ∈ bucket.messages ∧
      (finalCorrect = counties.length → bucket = bucket100) ∧
      (finalCorrect = 0 → bucket = bucket0) := by
  have hlen : counties.length ≠ 0 := by simpa using h
  have hlenq : ((counties.length : ℚ)) ≠ 0 := Nat.cast_ne_zero.mpr hlen
  have hp0 : 0 ≤ jsRound ((finalCorrect : ℚ) / (counties.length : ℚ) * 100) := by
    unfold jsRound
    apply Int.le_floor.mpr
    push_cast
    positivity
  obtain ⟨bucket, hb, hmsg, h100, h0b⟩ :=
    bucketFor_spec rand (jsRound ((finalCorrect : ℚ) / (counties.length : ℚ) * 100)) hp0
  refine ⟨_, bucket, finishTest_testResult counties now r s finalCorrect hlen, ?_, hb, hmsg,
    ?_, ?_⟩
  · show jsRound ((finalCorrect : ℚ) / (counties.length : ℚ) * 100) =
      jsRound (100 * (finalCorrect : ℚ) / (counties.length : ℚ))
    unfold jsRound
    congr 1
    ring
  · intro hc
    apply h100
    subst hc
    have harg : ((counties.length : ℚ) / (counties.length : ℚ) * 100) = 100 := by
      rw [div_self hlenq]
      ring
    rw [harg]
    norm_num [jsRound]
  · intro hc
    apply h0b
    subst hc
    norm_num [jsRound]

/-- C5 witness: finishing a one-county run with one correct answer. -/
theorem claim5_witness :
    (["Kent"] : List String) ≠ [] ∧
    ∃ res bucket,
      (finishTest ["Kent"] 0 0 baseState 1 false).testResult = some res ∧
      res.percent = jsRound (100 * ((1 : Nat) : ℚ) / (([("Kent" : String)] : List String).length : ℚ)) ∧
      bucketFor res.percent = some bucket ∧
      pickTestMessage (fun _ => 0) res.percent ∈ bucket.messages ∧
      ((1 : Nat) = (["Kent"] : List String).length → bucket = bucket100) ∧
      ((1 : Nat) = 0 → bucket = bucket0) :=
  ⟨by simp, claim5_finish_summary ["Kent"] 0 0 baseState 1 (fun _ => 0) (by simp)⟩

/-- C6 counterexample: for the fresh region entry (seen = 0, attempts = 0) the
code's early return yields 6.5, not the claimed 6.5 + 0.4. -/
theorem claim6_counterexample :
    weightForCounty emptyStats "Kent" none = 6.5 ∧
    weightForCounty emptyStats "Kent" none ≠ 6.5 + 0.4 := by
  constructor <;>
    norm_num [weightForCounty, ensureStats, emptyStats, defaultStats]

/-- C6 amended: for a region with attempts = correct + wrong = 0 the weight is
exactly 6.5, independent of `seen` and of the previous region — the early
return skips both the seen-0 bonus and the previous-region discount. -/
theorem claim6_weight_unattempted (stats : StatsTable) (county : String)
    (previous : Option String)
    (h : (ensureStats stats county).correct + (ensureStats stats county).wrong = 0) :
    weightForCounty stats county previous = 6.5 := by
  unfold weightForCounty
  simp [h]

/-- C6 witness: an unattempted region, asked with itself as the previous
region, still weighs exactly 6.5. -/
theorem claim6_witness :
    (ensureStats emptyStats "Kent").correct + (ensureStats emptyStats "Kent").wrong = 0 ∧
    weightForCounty emptyStats "Kent" (some "Kent") = 6.5 :=
  ⟨by decide, claim6_weight_unattempted emptyStats "Kent" (some "Kent") (by decide)⟩

/-- C7 counterexample: cancelling mid-run resets `testCorrect` from 3 to 0
(not frozen at its current value) and auto-advances — the weighted selector
runs, the prompt moves to "Kent" and its `seen` is bumped — contradicting the
claimed absence of auto-advance. -/
theorem claim7_counterexample :
    stateC7.testCorrect = 3 ∧
    (cancelTestMode ["Kent", "Sussex"] 0 stateC7).testCorrect = 0 ∧
    (cancelTestMode ["Kent", "Sussex"] 0 stateC7).currentCounty = "Kent" ∧
    ensureStats (cancelTestMode ["Kent", "Sussex"] 0 stateC7).stats "Kent" ≠
      ensureStats stateC7.stats "Kent" := by
  have hpick : pickNextCounty ["Kent", "Sussex"] emptyStats (some "Sussex") 0 =
      some "Kent" := by
    norm_num [pickNextCounty, pickLoop, weightForCounty, ensureStats,
      emptyStats, defaultStats, prevMatches, Option.orElse]
  refine ⟨rfl, ?_, ?_, ?_⟩ <;>
    simp [cancelTestMode, advanceState, stateC7, baseState, hpick, presentCounty,
      applyNextCounty, ensureStats, setStat, emptyStats, defaultStats]

/-- C7 amended: cancelling a test run surfaces no `TestResult`, leaves test
mode, clears the queue and start time, resets `correctCount` to 0, and then
auto-advances to a fresh ordinary prompt via the weighted selector —
incrementing the newly chosen region's `seen` and persisting the table. -/
theorem claim7_cancel_behaviour (counties : List String) (r : ℚ) (s : AppState)
    (h : counties ≠ []) :
    (cancelTestMode counties r s).testResult = none ∧
    (cancelTestMode counties r s).isTestMode = false ∧
    (cancelTestMode counties r s).testQueue = [] ∧
    (cancelTestMode counties r s).testCorrect = 0 ∧
    (cancelTestMode counties r s).testStartTime = none ∧
    ∃ next ∈ counties,
      (cancelTestMode counties r s).currentCounty = next ∧
      (ensureStats (cancelTestMode counties r s).stats next).seen =
        (ensureStats s.stats next).seen + 1 ∧
      (cancelTestMode counties r s).storage = (cancelTestMode counties r s).stats := by
  obtain ⟨next, hmem, hpick⟩ := pickNextCounty_mem counties s.stats (some s.currentCounty) r h
  have hstep : cancelTestMode counties r s =
      presentCounty
        { s with isTestMode := false, testQueue := ([] : List String), testCorrect := 0,
                 testStartTime := (none : Option Nat), testResult := (none : Option TestRes),
                 selectedCountyName := "", feedback := "",
                 feedbackType := (none : Option String), isRevealed := false } next := by
    unfold cancelTestMode advanceState
    simp [hpick]
  rw [hstep]
  refine ⟨rfl, rfl, rfl, rfl, rfl, next, hmem, rfl, ?_, rfl⟩
  simp [presentCounty, applyNextCounty, ensureStats_setStat_self]

/-- C7 witness: the amended statement on the one-county catalog from the
concrete mid-run state. -/
theorem claim7_witness :
    (["Kent"] : List String) ≠ [] ∧
    ((cancelTestMode ["Kent"] 0 stateC7).testResult = none ∧
      (cancelTestMode ["Kent"] 0 stateC7).isTestMode = false ∧
      (cancelTestMode ["Kent"] 0 stateC7).testQueue = [] ∧
      (cancelTestMode ["Kent"] 0 stateC7).testCorrect = 0 ∧
      (cancelTestMode ["Kent"] 0 stateC7).testStartTime = none ∧
      ∃ next ∈ (["Kent"] : List String),
        (cancelTestMode ["Kent"] 0 stateC7).currentCounty = next ∧
        (ensureStats (cancelTestMode ["Kent"] 0 stateC7).stats next).seen =
          (ensureStats stateC7.stats next).seen + 1 ∧
        (cancelTestMode ["Kent"] 0 stateC7).storage =
          (cancelTestMode ["Kent"] 0 stateC7).stats) :=
  ⟨by simp, claim7_cancel_behaviour ["Kent"] 0 stateC7 (by simp)⟩

/-- C8: absent (`null` from the store, or an empty string), unparseable, or
non-object persisted content yields the empty table.  `loadStats` is a total
Lean function, which models that the `try`/`catch` lets no exception escape;
note that a JSON array passes JS's `typeof === "object"` test and therefore
counts as object content. -/
theorem claim8_load_fallback (raw : Option String)
    (parseJson : String → Except String JsValue)
    (h : raw = none ∨ raw = some "" ∨
      (∃ content e, raw = some content ∧ parseJson content = .error e) ∨
      (∃ content v, raw = some content ∧ parseJson content = .ok v ∧
        nonObjectContent v = true)) :
    loadStats raw parseJson = JsValue.object [] := by
  rcases h with rfl | rfl | ⟨content, e, rfl, he⟩ | ⟨content, v, rfl, hv, hn⟩
  · rfl
  · rfl
  · by_cases hc : content = ""
    · simp [loadStats, hc]
    · simp [loadStats, hc, he]
  · by_cases hc : content = ""
    · simp [loadStats, hc]
    · simp [loadStats, hc, hv, nonObject_fails_guard v hn]

/-- C8 witness: an absent stored value loads as the empty table. -/
theorem claim8_witness :
    ((none : Option String) = none) ∧
    loadStats none (fun _ => Except.error "bad") = JsValue.object [] :=
  ⟨rfl, claim8_load_fallback none (fun _ => Except.error "bad") (Or.inl rfl)⟩

/-- C9 counterexample: with "Kent" prompted but missing from the map surface,
pressing Show warns and does not enter `Revealed` — but the statistics table
has already changed ("Kent" gained a `wrong`), contradicting the claimed
no-op. -/
theorem claim9_counterexample :
    (handleShowOrNext ["Kent", "Sussex"] ["Sussex"] 0 0
        { baseState with currentCounty := "Kent" }).log =
      ["[map] County path not found for id: Kent"] ∧
    (handleShowOrNext ["Kent", "Sussex"] ["Sussex"] 0 0
        { baseState with currentCounty := "Kent" }).isRevealed = false ∧
    ensureStats (handleShowOrNext ["Kent", "Sussex"] ["Sussex"] 0 0
        { baseState with currentCounty := "Kent" }).stats "Kent" ≠
      ensureStats baseState.stats "Kent" := by
  refine ⟨?_, ?_, ?_⟩ <;>
    simp [handleShowOrNext, getCountyPath, baseState, ensureStats, setStat, emptyStats,
      defaultStats]

/-- C9 amended: when the current region's element is missing from the map
surface during Reveal, the operation logs the diagnostic warning and does not
enter `Revealed` or highlight anything — but it is not a complete no-op: the
current region's `wrong` counter has already been incremented and the table
persisted before the lookup. -/
theorem claim9_missing_element (counties surface : List String) (now : Nat) (r : ℚ)
    (s : AppState)
    (hcc : s.currentCounty ≠ "") (hprompt : s.isRevealed = false)
    (hmiss : s.currentCounty ∉ surface) :
    (handleShowOrNext counties surface now r s).isRevealed = false ∧
    (handleShowOrNext counties surface now r s).log =
      s.log ++ ["[map] County path not found for id: " ++ s.currentCounty] ∧
    (handleShowOrNext counties surface now r s).stats =
      setStat s.stats s.currentCounty
        {ensureStats s.stats s.currentCounty with
          wrong := (ensureStats s.stats s.currentCounty).wrong + 1} ∧
    (handleShowOrNext counties surface now r s).storage =
      (handleShowOrNext counties surface now r s).stats ∧
    (handleShowOrNext counties surface now r s).currentCounty = s.currentCounty ∧
    (handleShowOrNext counties surface now r s).testQueue = s.testQueue := by
  have hg : getCountyPath surface s.currentCounty =
      (none, ["[map] County path not found for id: " ++ s.currentCounty]) := by
    simp [getCountyPath, hcc, hmiss]
  unfold handleShowOrNext
  simp [if_neg hcc, hprompt, hg]

/-- C9 witness: the amended statement at the concrete missing-element state. -/
theorem claim9_witness :
    (({ baseState with currentCounty := "Kent" } : AppState).currentCounty ≠ "" ∧
      ({ baseState with currentCounty := "Kent" } : AppState).isRevealed = false ∧
      ({ baseState with currentCounty := "Kent" } : AppState).currentCounty ∉
        (["Sussex"] : List String)) ∧
    ((handleShowOrNext ["Kent", "Sussex"] ["Sussex"] 0 0
        { baseState with currentCounty := "Kent" }).isRevealed = false ∧
      (handleShowOrNext ["Kent", "Sussex"] ["Sussex"] 0 0
          { baseState with currentCounty := "Kent" }).log =
        ({ baseState with currentCounty := "Kent" } : AppState).log ++
          ["[map] County path not found for id: " ++
            ({ baseState with currentCounty := "Kent" } : AppState).currentCounty] ∧
      (handleShowOrNext ["Kent", "Sussex"] ["Sussex"] 0 0
          { baseState with currentCounty := "Kent" }).stats =
        setStat ({ baseState with currentCounty := "Kent" } : AppState).stats
          ({ baseState with currentCounty := "Kent" } : AppState).currentCounty
          {ensureStats ({ baseState with currentCounty := "Kent" } : AppState).stats
              ({ baseState with currentCounty := "Kent" } : AppState).currentCounty with
            wrong := (ensureStats ({ baseState with currentCounty := "Kent" } : AppState).stats
              ({ baseState with currentCounty := "Kent" } : AppState).currentCounty).wrong + 1} ∧
      (handleShowOrNext ["Kent", "Sussex"] ["Sussex"] 0 0
          { baseState with currentCounty := "Kent" }).storage =
        (handleShowOrNext ["Kent", "Sussex"] ["Sussex"] 0 0
          { baseState with currentCounty := "Kent" }).stats ∧
      (handleShowOrNext ["Kent", "Sussex"] ["Sussex"] 0 0
          { baseState with currentCounty := "Kent" }).currentCounty =
        ({ baseState with currentCounty := "Kent" } : AppState).currentCounty ∧
      (handleShowOrNext ["Kent", "Sussex"] ["Sussex"] 0 0
          { baseState with currentCounty := "Kent" }).testQueue =
        ({ baseState with currentCounty := "Kent" } : AppState).testQueue) :=
  ⟨⟨by simp [baseState], rfl, by simp [baseState]⟩,
    claim9_missing_element ["Kent", "Sussex"] ["Sussex"] 0 0
      { baseState with currentCounty := "Kent" } (by simp [baseState]) rfl
      (by simp [baseState])⟩

/-- C10: with non-negative counters (inherent in the ℕ-valued model), every
region's weight is at least 0.6 — hence strictly positive — the total weight
of a non-empty catalog is strictly positive, and the weighted selector returns
a catalog member for every random draw: the last-element fallback makes the
roulette walk total. -/
theorem claim10_selector_safety (counties : List String) (stats : StatsTable)
    (previous : Option String) (county : String) (r : ℚ) (h : counties ≠ []) :
    ((0.6 : ℚ) ≤ weightForCounty stats county previous ∧
      0 < weightForCounty stats county previous) ∧
    0 < totalWeight counties stats previous ∧
    ∃ c ∈ counties, pickNextCounty counties stats previous r = some c := by
  refine ⟨⟨weightForCounty_ge stats county previous, weightForCounty_pos stats county previous⟩,
    ?_, pickNextCounty_mem counties stats previous r h⟩
  unfold totalWeight
  apply List.sum_pos
  · intro x hx
    obtain ⟨c, _, rfl⟩ := List.mem_map.mp hx
    exact weightForCounty_pos stats c previous
  · simpa using h

/-- C10 witness: on the one-element catalog with an empty table the bounds
hold and the selector yields the sole member. -/
theorem claim10_witness :
    (["Kent"] : List String) ≠ [] ∧
    (((0.6 : ℚ) ≤ weightForCounty emptyStats "Kent" none ∧
        0 < weightForCounty emptyStats "Kent" none) ∧
      0 < totalWeight ["Kent"] emptyStats none ∧
      ∃ c ∈ (["Kent"] : List String), pickNextCounty ["Kent"] emptyStats none 0 = some c) :=
  ⟨by simp, claim10_selector_safety ["Kent"] emptyStats none "Kent" 0 (by simp)⟩
